import Mathlib

/-!
Verification development for the ScreenASO Play Store review acquisition
engine (`src/core/play_store/play_store_reviews.py`).

The Python source is shallowly embedded: pure helpers become Lean functions
over `String` / `List Char`; the network and browser channels are abstracted
as oracle parameters supplying the values those calls would return; code that
can raise a Python exception is modelled with `Except`.  Machine-level
caveats of the embedding, noted where they apply: Python `str.strip`,
`str.lower` and the `\w`/`\s` regex classes are modelled over the ASCII
range, and JSON numbers are modelled as exact rationals.
-/

namespace ScreenASO

set_option maxRecDepth 200000

/-! ## Python string primitives -/

/-- The whitespace set of Python `str.strip` / regex `\s` (ASCII range). -/
def pyIsSpace (c : Char) : Bool :=
  c = ' ' || c = '\t' || c = '\n' || c = '\x0d' || c = '\x0b' || c = '\x0c'

/-- Word characters for the regex `\b` boundary (ASCII range of `\w`). -/
def pyIsWord (c : Char) : Bool :=
  (('a' ≤ c && c ≤ 'z') || ('A' ≤ c && c ≤ 'Z') || ('0' ≤ c && c ≤ '9') || c = '_')

def pyStripList (l : List Char) : List Char :=
  ((l.dropWhile pyIsSpace).reverse.dropWhile pyIsSpace).reverse

/-- Python `str.strip()`. -/
def pyStrip (s : String) : String := ⟨pyStripList s.data⟩

/-- Python `str.lower()` on one character (ASCII range). -/
def pyCharLower (c : Char) : Char :=
  if 'A' ≤ c && c ≤ 'Z' then Char.ofNat (c.toNat + 32) else c

/-- Python `str.lower()` (ASCII range). -/
def pyLower (s : String) : String := ⟨s.data.map pyCharLower⟩

/-- First `n` characters of a string (Python slice `s[:n]`). -/
def strTake (n : Nat) (s : String) : String := ⟨s.data.take n⟩

/-- Characters from index `n` on (Python slice `s[n:]`). -/
def strDrop (n : Nat) (s : String) : String := ⟨s.data.drop n⟩

/-! ## UTF-8 encoding (Python `str.encode("utf-8")`) -/

def utf8Char (c : Char) : List Nat :=
  let n := c.toNat
  if n < 0x80 then [n]
  else if n < 0x800 then [0xC0 + n / 64, 0x80 + n % 64]
  else if n < 0x10000 then [0xE0 + n / 4096, 0x80 + (n / 64) % 64, 0x80 + n % 64]
  else [0xF0 + n / 262144, 0x80 + (n / 4096) % 64, 0x80 + (n / 64) % 64, 0x80 + n % 64]

def utf8Encode (s : String) : List Nat := (s.data.map utf8Char).flatten

/-! ## SHA-256 (`hashlib.sha256`), big-endian words over `Nat` mod 2^32 -/

def w32 (n : Nat) : Nat := n % 4294967296

def rotr32 (x k : Nat) : Nat := w32 ((x >>> k) ||| (x <<< (32 - k)))

/-- The 64 round constants of FIPS 180-4, written in decimal. -/
def shaK : List Nat :=
  [1116352408, 1899447441, 3049323471, 3921009573, 961987163, 1508970993,
   2453635748, 2870763221, 3624381080, 310598401, 607225278, 1426881987,
   1925078388, 2162078206, 2614888103, 3248222580, 3835390401, 4022224774,
   264347078, 604807628, 770255983, 1249150122, 1555081692, 1996064986,
   2554220882, 2821834349, 2952996808, 3210313671, 3336571891, 3584528711,
   113926993, 338241895, 666307205, 773529912, 1294757372, 1396182291,
   1695183700, 1986661051, 2177026350, 2456956037, 2730485921, 2820302411,
   3259730800, 3345764771, 3516065817, 3600352804, 4094571909, 275423344,
   430227734, 506948616, 659060556, 883997877, 958139571, 1322822218,
   1537002063, 1747873779, 1955562222, 2024104815, 2227730452, 2361852424,
   2428436474, 2756734187, 3204031479, 3329325298]

/-- The eight initial hash words of FIPS 180-4, written in decimal. -/
def shaH0 : List Nat :=
  [1779033703, 3144134277, 1013904242, 2773480762,
   1359893119, 2600822924, 528734635, 1541459225]

/-- Pad a byte message to a multiple of 64 bytes (SHA-256 padding). -/
def sha256Pad (msg : List Nat) : List Nat :=
  let len := msg.length
  let zeroCount := (55 + 64 - len % 64) % 64
  msg ++ [0x80] ++ List.replicate zeroCount 0 ++
    (List.range 8).map (fun i => ((len * 8) >>> ((7 - i) * 8)) % 256)

/-- Combine a byte list into big-endian 32-bit words. -/
def bytesToWords : Nat → List Nat → List Nat
  | 0, _ => []
  | _, [] => []
  | fuel + 1, b0 :: rest =>
    let b1 := rest.getD 0 0
    let b2 := rest.getD 1 0
    let b3 := rest.getD 2 0
    (((b0 * 256 + b1) * 256 + b2) * 256 + b3) :: bytesToWords fuel (rest.drop 3)

/-- Extend 16 message words to the 64-word schedule. -/
def shaSchedule (ws : List Nat) : List Nat :=
  (List.range 48).foldl
    (fun acc _ =>
      let n := acc.length
      let g := fun i => acc.getD (n - i) 0
      let s0 := (rotr32 (g 15) 7) ^^^ (rotr32 (g 15) 18) ^^^ ((g 15) >>> 3)
      let s1 := (rotr32 (g 2) 17) ^^^ (rotr32 (g 2) 19) ^^^ ((g 2) >>> 10)
      acc ++ [w32 (g 16 + s0 + g 7 + s1)])
    ws

/-- One SHA-256 compression round over the running eight-word state. -/
def shaRound (st : List Nat) (kw : Nat × Nat) : List Nat :=
  match st with
  | [a, b, c, d, e, f, g, h] =>
    let s1 := (rotr32 e 6) ^^^ (rotr32 e 11) ^^^ (rotr32 e 25)
    let ch := (e &&& f) ^^^ ((4294967295 - e) &&& g)
    let t1 := w32 (h + s1 + ch + kw.1 + kw.2)
    let s0 := (rotr32 a 2) ^^^ (rotr32 a 13) ^^^ (rotr32 a 22)
    let mj := (a &&& b) ^^^ (a &&& c) ^^^ (b &&& c)
    let t2 := w32 (s0 + mj)
    [w32 (t1 + t2), a, b, c, w32 (d + t1), e, f, g]
  | other => other

/-- Compress one 64-byte block into the hash state. -/
def shaCompress (h : List Nat) (block : List Nat) : List Nat :=
  let ws := shaSchedule (bytesToWords 16 block)
  let st := (shaK.zip ws).foldl shaRound h
  (h.zip st).map (fun p => w32 (p.1 + p.2))

def shaBlocks : Nat → List Nat → List Nat → List Nat
  | 0, h, _ => h
  | _, h, [] => h
  | fuel + 1, h, bytes => shaBlocks fuel (shaCompress h (bytes.take 64)) (bytes.drop 64)

/-- SHA-256 of a byte message, as the eight 32-bit state words. -/
def sha256Words (msg : List Nat) : List Nat :=
  let padded := sha256Pad msg
  shaBlocks (padded.length / 64 + 1) shaH0 padded

def hexDigit (n : Nat) : Char :=
  if n < 10 then Char.ofNat (48 + n) else Char.ofNat (87 + n)

def wordToHex (v : Nat) : List Char :=
  (List.range 8).map (fun i => hexDigit ((v >>> ((7 - i) * 4)) % 16))

/-- `hashlib.sha256(...).hexdigest()`: 64 lowercase hex characters. -/
def sha256Hex (msg : List Nat) : String :=
  ⟨(sha256Words msg).map wordToHex |>.flatten⟩

/-! ## `PlayStoreReviewScraper._anonymize_user` -/

/--
`_anonymize_user(user)`: `None` or a string that is empty after `strip()`
maps to `"anon"`; otherwise the name is stripped, lowercased, hashed with
SHA-256 and the token is `"anon_"` plus the first 8 hex digits.
-/
def anonymizeUser (user : Option String) : String :=
  match user with
  | none => "anon"
  | some u =>
    if u = "" then "anon"
    else
      let normalized := pyStrip u
      if normalized = "" then "anon"
      else "anon_" ++ strTake 8 (sha256Hex (utf8Encode (pyLower normalized)))

/-- The truncated digest a non-blank author name is mapped to. -/
def authorDigest8 (u : String) : String :=
  strTake 8 (sha256Hex (utf8Encode (pyLower (pyStrip u))))

/-- Sanity anchor for the hash model: the NIST test vector for "abc". -/
theorem sha256Hex_abc :
    sha256Hex (utf8Encode "abc") =
      "ba7816bf8f01cfea414140de5dae2223b00361a396177a9cb410ff61f20015ad" := by
  decide

/-! ## JSON values (`json.loads`)

Numbers are modelled as exact rationals in lowest terms, with a flag telling
whether the literal was an int (no fraction or exponent part), because
Python distinguishes `int` from `float` when stringifying.  The model covers
strict JSON; Python's `NaN`/`Infinity` extensions are not modelled and no
theorem below depends on them. -/

/-- A JSON number: normalized fraction plus the Python `int`-vs-`float` tag. -/
structure PyNum where
  num : Int
  den : Nat
  isInt : Bool
deriving DecidableEq

/-- Build the normalized value `m / 10^fracLen * 10^exp`. -/
def pyNumMk (m : Int) (fracLen : Nat) (exp : Int) (isInt : Bool) : PyNum :=
  let net : Int := exp - fracLen
  if 0 ≤ net then ⟨m * (10 : Int) ^ net.natAbs, 1, isInt⟩
  else
    let den0 := (10 : Nat) ^ net.natAbs
    let g := Nat.gcd m.natAbs den0
    ⟨Int.tdiv m g, den0 / g, isInt⟩

inductive JVal where
  | null : JVal
  | bool (b : Bool) : JVal
  | num (v : PyNum) : JVal
  | str (s : String) : JVal
  | arr (items : List JVal) : JVal
  | obj (members : List (String × JVal)) : JVal

/-- Python truthiness of a decoded JSON value. -/
def jTruthy : JVal → Bool
  | .null => false
  | .bool b => b
  | .num v => v.num ≠ 0
  | .str s => s ≠ ""
  | .arr l => !l.isEmpty
  | .obj l => !l.isEmpty

def jSkipWs (cs : List Char) : List Char :=
  cs.dropWhile (fun c => c = ' ' || c = '\t' || c = '\n' || c = '\x0d')

def hexVal? (c : Char) : Option Nat :=
  if '0' ≤ c && c ≤ '9' then some (c.toNat - 48)
  else if 'a' ≤ c && c ≤ 'f' then some (c.toNat - 87)
  else if 'A' ≤ c && c ≤ 'F' then some (c.toNat - 55)
  else none

/-- JSON string body parser (after the opening quote).  Lone surrogates,
which Python can keep in its strings but Lean's `Char` cannot represent,
are mapped to U+FFFD; no theorem depends on that corner. -/
def jparseStr : Nat → List Char → List Char → Option (String × List Char)
  | 0, _, _ => none
  | fuel + 1, acc, cs =>
    match cs with
    | [] => none
    | '"' :: rest => some (⟨acc.reverse⟩, rest)
    | '\\' :: esc :: rest =>
      match esc with
      | '"' => jparseStr fuel ('"' :: acc) rest
      | '\\' => jparseStr fuel ('\\' :: acc) rest
      | '/' => jparseStr fuel ('/' :: acc) rest
      | 'b' => jparseStr fuel ('\x08' :: acc) rest
      | 'f' => jparseStr fuel ('\x0c' :: acc) rest
      | 'n' => jparseStr fuel ('\n' :: acc) rest
      | 'r' => jparseStr fuel ('\x0d' :: acc) rest
      | 't' => jparseStr fuel ('\t' :: acc) rest
      | 'u' =>
        match rest with
        | h1 :: h2 :: h3 :: h4 :: rest2 =>
          match hexVal? h1, hexVal? h2, hexVal? h3, hexVal? h4 with
          | some a, some b, some c, some d =>
            let n := ((a * 16 + b) * 16 + c) * 16 + d
            if 0xD800 ≤ n && n ≤ 0xDBFF then
              match rest2 with
              | '\\' :: 'u' :: g1 :: g2 :: g3 :: g4 :: rest3 =>
                match hexVal? g1, hexVal? g2, hexVal? g3, hexVal? g4 with
                | some a2, some b2, some c2, some d2 =>
                  let m := ((a2 * 16 + b2) * 16 + c2) * 16 + d2
                  if 0xDC00 ≤ m && m ≤ 0xDFFF then
                    jparseStr fuel
                      (Char.ofNat (0x10000 + (n - 0xD800) * 1024 + (m - 0xDC00)) :: acc) rest3
                  else jparseStr fuel (Char.ofNat 0xFFFD :: acc) rest2
                | _, _, _, _ => jparseStr fuel (Char.ofNat 0xFFFD :: acc) rest2
              | _ => jparseStr fuel (Char.ofNat 0xFFFD :: acc) rest2
            else if 0xDC00 ≤ n && n ≤ 0xDFFF then
              jparseStr fuel (Char.ofNat 0xFFFD :: acc) rest2
            else jparseStr fuel (Char.ofNat n :: acc) rest2
          | _, _, _, _ => none
        | _ => none
      | _ => none
    | c :: rest => if c.toNat < 0x20 then none else jparseStr fuel (c :: acc) rest

def digitsVal (l : List Char) : Nat :=
  l.foldl (fun a c => a * 10 + (c.toNat - 48)) 0

/-- JSON number parser. -/
def jparseNum (cs : List Char) : Option (JVal × List Char) :=
  let (neg, cs1) := match cs with
    | '-' :: r => (true, r)
    | _ => (false, cs)
  let ipart := cs1.takeWhile Char.isDigit
  let cs2 := cs1.dropWhile Char.isDigit
  if ipart = [] then none
  else if ipart.length > 1 && ipart.headD '0' = '0' then none
  else
    let (fpart, cs3, hasFrac) := match cs2 with
      | '.' :: r =>
        (r.takeWhile Char.isDigit, r.dropWhile Char.isDigit, true)
      | _ => ([], cs2, false)
    if hasFrac && fpart = [] then none
    else
      let (epart, cs4, hasExp) := match cs3 with
        | 'e' :: r => (some r, r, true)
        | 'E' :: r => (some r, r, true)
        | _ => (none, cs3, false)
      match epart with
      | none =>
        let m : Int := if neg then -(digitsVal (ipart ++ fpart) : Int)
                       else (digitsVal (ipart ++ fpart) : Int)
        some (.num (pyNumMk m fpart.length 0 (!hasFrac && !hasExp)), cs4)
      | some r =>
        let (eneg, r1) := match r with
          | '-' :: rr => (true, rr)
          | '+' :: rr => (false, rr)
          | _ => (false, r)
        let edigits := r1.takeWhile Char.isDigit
        let r2 := r1.dropWhile Char.isDigit
        if edigits = [] then none
        else
          let e : Int := if eneg then -(digitsVal edigits : Int) else (digitsVal edigits : Int)
          let m : Int := if neg then -(digitsVal (ipart ++ fpart) : Int)
                         else (digitsVal (ipart ++ fpart) : Int)
          some (.num (pyNumMk m fpart.length e false), r2)

/-- Parser state: a plain value, or the element/member loop of a composite. -/
inductive JMode where
  | val : JMode
  | arrElem (acc : List JVal) : JMode
  | arrAfter (acc : List JVal) : JMode
  | objPair (acc : List (String × JVal)) : JMode
  | objAfter (acc : List (String × JVal)) : JMode

def jparseF : Nat → JMode → List Char → Option (JVal × List Char)
  | 0, _, _ => none
  | fuel + 1, .val, cs =>
    match jSkipWs cs with
    | 'n' :: 'u' :: 'l' :: 'l' :: rest => some (.null, rest)
    | 't' :: 'r' :: 'u' :: 'e' :: rest => some (.bool true, rest)
    | 'f' :: 'a' :: 'l' :: 's' :: 'e' :: rest => some (.bool false, rest)
    | '"' :: rest => (jparseStr (fuel + 1) [] rest).map (fun p => (.str p.1, p.2))
    | '[' :: rest =>
      match jSkipWs rest with
      | ']' :: rest2 => some (.arr [], rest2)
      | _ => jparseF fuel (.arrElem []) rest
    | '\x7b' :: rest =>
      match jSkipWs rest with
      | '\x7d' :: rest2 => some (.obj [], rest2)
      | _ => jparseF fuel (.objPair []) rest
    | c :: rest =>
      if c = '-' || c.isDigit then jparseNum (c :: rest) else none
    | [] => none
  | fuel + 1, .arrElem acc, cs =>
    match jparseF fuel .val cs with
    | none => none
    | some (v, rest) => jparseF fuel (.arrAfter (v :: acc)) rest
  | fuel + 1, .arrAfter acc, cs =>
    match jSkipWs cs with
    | ']' :: rest => some (.arr acc.reverse, rest)
    | ',' :: rest => jparseF fuel (.arrElem acc) rest
    | _ => none
  | fuel + 1, .objPair acc, cs =>
    match jSkipWs cs with
    | '"' :: rest =>
      match jparseStr (fuel + 1) [] rest with
      | none => none
      | some (k, rest1) =>
        match jSkipWs rest1 with
        | ':' :: rest2 =>
          match jparseF fuel .val rest2 with
          | none => none
          | some (v, rest3) => jparseF fuel (.objAfter ((k, v) :: acc)) rest3
        | _ => none
    | _ => none
  | fuel + 1, .objAfter acc, cs =>
    match jSkipWs cs with
    | '\x7d' :: rest => some (.obj acc.reverse, rest)
    | ',' :: rest => jparseF fuel (.objPair acc) rest
    | _ => none

/-- `json.loads`: parse one JSON document, allowing surrounding whitespace. -/
def jparse (s : String) : Option JVal :=
  match jparseF (2 * s.data.length + 8) .val s.data with
  | some (v, rest) => if jSkipWs rest = [] then some v else none
  | none => none

/-! ## `_clean_review_text`: remove UI artefact phrases, collapse whitespace -/

/-- Case-insensitive literal prefix test (regex `IGNORECASE`, ASCII fold). -/
def ciMatchesAt : List Char → List Char → Bool
  | [], _ => true
  | _ :: _, [] => false
  | p :: ps, t :: ts => pyCharLower p = pyCharLower t && ciMatchesAt ps ts

/--
One `re.sub(r"\bPHRASE\b", "", text, flags=IGNORECASE)` pass: delete each
non-overlapping, case-insensitive occurrence of the literal phrase whose two
ends sit on `\b` word boundaries.
-/
def subPhraseGo (phrase : List Char) : Nat → Option Char → List Char → List Char
  | 0, _, text => text
  | fuel + 1, prev, text =>
    match text with
    | [] => []
    | c :: rest =>
      if ciMatchesAt phrase (c :: rest) then
        let matched := (c :: rest).take phrase.length
        let after := (c :: rest).drop phrase.length
        let prevWord := match prev with
          | some p => pyIsWord p
          | none => false
        let lastC := matched.getLastD c
        let nextWord := match after with
          | a :: _ => pyIsWord a
          | [] => false
        if (prevWord != pyIsWord c) && (pyIsWord lastC != nextWord) then
          subPhraseGo phrase fuel (some lastC) after
        else c :: subPhraseGo phrase fuel (some c) rest
      else c :: subPhraseGo phrase fuel (some c) rest

def subPhrase (phrase : String) (text : List Char) : List Char :=
  subPhraseGo phrase.data (text.length + 1) none text

/-- Collapse each whitespace run to a single space (`re.sub(r"\s+", " ")`). -/
def collapseWs : List Char → Bool → List Char
  | [], _ => []
  | c :: rest, inRun =>
    if pyIsSpace c then
      if inRun then collapseWs rest true else ' ' :: collapseWs rest true
    else c :: collapseWs rest false

/-- `_clean_review_text`: strip the known UI boilerplate phrases, then
collapse whitespace and trim. -/
def cleanReviewText (value : String) : String :=
  let phrases := ["Flag inappropriate", "Show review history", "Report inappropriate",
    "Full Review", "Read more", "more_vert", "Did you find this helpful?"]
  let cleaned := phrases.foldl (fun t p => subPhrase p t) value.data
  ⟨pyStripList (collapseWs cleaned false)⟩

/-! ## `_split_title_and_body` -/

def isSentEnd (c : Char) : Bool := c = '.' || c = '!' || c = '?'

/--
`re.split(r"(?<=[.!?])\s+", text)`: split at each maximal whitespace run
immediately preceded by a sentence-ending character.
-/
def splitSentGo : List Char → Option Char → Bool → List Char → List (List Char)
  | [], _, _, acc => [acc.reverse]
  | c :: rest, prev, justSplit, acc =>
    if pyIsSpace c then
      if justSplit && acc.isEmpty then splitSentGo rest (some c) true []
      else if prev.elim false isSentEnd then
        acc.reverse :: splitSentGo rest (some c) true []
      else splitSentGo rest (some c) false (c :: acc)
    else splitSentGo rest (some c) false (c :: acc)

def joinSpaceGo : List (List Char) → List Char
  | [] => []
  | [x] => x
  | x :: y :: rest => x ++ ' ' :: joinSpaceGo (y :: rest)

/-- `_split_title_and_body`: first sentence as title when there are several
sentences; a 120-character cutoff for long unbroken text; else no title. -/
def splitTitleAndBody (bodyText : String) : String × String :=
  if bodyText = "" then ("", "")
  else
    let sentences := splitSentGo bodyText.data none false []
    if sentences.length > 1 then
      (pyStrip ⟨sentences.headD []⟩, pyStrip ⟨joinSpaceGo sentences.tail⟩)
    else if bodyText.data.length > 160 then
      (pyStrip (strTake 120 bodyText), pyStrip (strDrop 120 bodyText))
    else ("", pyStrip bodyText)

/-! ## `_format_timestamp` -/

def natStrGo : Nat → Nat → List Char → List Char
  | 0, _, acc => acc
  | fuel + 1, n, acc =>
    if n = 0 then acc else natStrGo fuel (n / 10) (Char.ofNat (48 + n % 10) :: acc)

def natStr (n : Nat) : String := if n = 0 then "0" else ⟨natStrGo (n + 1) n []⟩

def intStr (i : Int) : String :=
  if i < 0 then "-" ++ natStr i.natAbs else natStr i.natAbs

/-- Render `n` zero-padded to at least `width` digits. -/
def natPad (width n : Nat) : String :=
  let digits := (natStr n).data
  ⟨List.replicate (width - digits.length) '0' ++ digits⟩

/-- Python `int(x)` on a decoded JSON value (`none` models a raised error).
`int` truncates toward zero; string arguments allow surrounding whitespace
and a sign. -/
def pyInt? : JVal → Option Int
  | .num v => some (Int.tdiv v.num v.den)
  | .bool b => some (if b then 1 else 0)
  | .str s =>
    let l := pyStripList s.data
    let (neg, l1) := match l with
      | '-' :: r => (true, r)
      | '+' :: r => (false, r)
      | _ => (false, l)
    if !l1.isEmpty && l1.all Char.isDigit then
      some (if neg then -(digitsVal l1 : Int) else (digitsVal l1 : Int))
    else none
  | _ => none

/-- Seconds range accepted by `datetime.fromtimestamp(_, tz=utc)`:
0001-01-01T00:00:00 .. 9999-12-31T23:59:59.999999 UTC. -/
def minEpochUs : Int := -62135596800 * 1000000
def maxEpochUs : Int := 253402300799 * 1000000 + 999999

/-- Civil date from days since 1970-01-01 (proleptic Gregorian). -/
def civilFromDays (days : Int) : Int × Int × Int :=
  let z := days + 719468
  let era := Int.ediv z 146097
  let doe := Int.emod z 146097
  let yoe := Int.ediv (doe - Int.ediv doe 1460 + Int.ediv doe 36524 - Int.ediv doe 146096) 365
  let y0 := yoe + era * 400
  let doy := doe - (365 * yoe + Int.ediv yoe 4 - Int.ediv yoe 100)
  let mp := Int.ediv (5 * doy + 2) 153
  let d := doy - Int.ediv (153 * mp + 2) 5 + 1
  let m := mp + (if mp < 10 then 3 else -9)
  (y0 + (if m ≤ 2 then 1 else 0), m, d)

/-- `datetime.fromtimestamp(..., tz=timezone.utc).isoformat()` at microsecond
precision (the float rounding of the CPython path is modelled by integer
truncation of the nanosecond remainder; no theorem depends on sub-second
formatting). -/
def isoUtcOfMicros (us : Int) : String :=
  let days := Int.ediv us 86400000000
  let rem := (Int.emod us 86400000000).toNat
  let ymd := civilFromDays days
  let hh := rem / 3600000000
  let mi := rem / 60000000 % 60
  let ss := rem / 1000000 % 60
  let micro := rem % 1000000
  natPad 4 ymd.1.toNat ++ "-" ++ natPad 2 ymd.2.1.toNat ++ "-" ++ natPad 2 ymd.2.2.toNat ++
    "T" ++ natPad 2 hh ++ ":" ++ natPad 2 mi ++ ":" ++ natPad 2 ss ++
    (if micro ≠ 0 then "." ++ natPad 6 micro else "") ++ "+00:00"

/-- `_format_timestamp`: a `(seconds, nanos)` pair becomes an ISO-8601 UTC
string; a non-list or empty value, or unconvertible seconds, becomes `""`;
an out-of-range timestamp falls back to `str(seconds)`. -/
def formatTimestamp (raw : JVal) : String :=
  match raw with
  | .arr (seconds0 :: restEls) =>
    match pyInt? seconds0 with
    | none => ""
    | some seconds =>
      let nanosRaw := restEls.headD (.num ⟨0, 1, true⟩)
      let nanos := (if jTruthy nanosRaw then pyInt? nanosRaw else some 0).getD 0
      let us := seconds * 1000000 + Int.tdiv nanos 1000
      if us < minEpochUs || maxEpochUs < us then intStr seconds
      else isoUtcOfMicros us
  | _ => ""

/-! ## `PlayStoreReview` and `_build_review_from_entry` -/

structure PlayStoreReview where
  username : String
  rating : Option PyNum
  title : String
  body : String
  date : String
  helpfulCount : Option Int
  version : Option String
  analysis : List (String × String) := []
deriving DecidableEq

/-- Python `str(x)` of a decoded JSON number.  Very large or tiny floats use
scientific notation in CPython; that cosmetic case is not modelled and no
theorem depends on it. -/
def pyNumStr (v : PyNum) : String :=
  if v.isInt then intStr v.num
  else
    let k := ((List.range 64).find? (fun k => (10 : Nat) ^ k % v.den = 0)).getD 64
    let scaled := v.num.natAbs * ((10 : Nat) ^ k / v.den)
    let sign := if v.num < 0 then "-" else ""
    if k = 0 then sign ++ natStr scaled ++ ".0"
    else
      let digits := (natStr scaled).data
      let padded := List.replicate (k + 1 - digits.length) '0' ++ digits
      sign ++ ⟨padded.take (padded.length - k)⟩ ++ "." ++ ⟨padded.drop (padded.length - k)⟩

/--
Model of `_clean_review_text(raw or "")` for a decoded JSON field: a truthy
non-string raw value reaches `re.sub`, which raises `TypeError` in Python
(nothing catches it inside the decoder); a falsy value is replaced by `""`.
-/
def cleanFromRaw (v : JVal) : Except String String :=
  if jTruthy v then
    match v with
    | .str s => .ok (cleanReviewText s)
    | _ => .error "TypeError: expected string or bytes-like object"
  else .ok (cleanReviewText "")

/--
`_build_review_from_entry`: decode one positional review entry.  `.ok none`
models the Python `return None` (entry skipped); `.error` models an
uncaught `TypeError` from `re.sub` on a truthy non-string title or body.
-/
def buildReviewFromEntry (entry : JVal) : Except String (Option PlayStoreReview) :=
  match entry with
  | .arr items =>
    if items.length < 5 then .ok none
    else
      let userBlock := items.getD 1 .null
      let rawUser : Option String := match userBlock with
        | .arr (u :: _) =>
          match u with
          | .str s => some s
          | _ => none
        | _ => none
      let username := anonymizeUser rawUser
      let rating : Option PyNum := match items.getD 2 .null with
        | .num v => some v
        | .bool b => some ⟨if b then 1 else 0, 1, false⟩
        | _ => none
      let rawTitle := items.getD 3 .null
      let rawBody := items.getD 4 .null
      match cleanFromRaw rawBody with
      | .error e => .error e
      | .ok cleanedBody =>
        match (if jTruthy rawTitle then cleanFromRaw rawTitle else .ok "") with
        | .error e => .error e
        | .ok cleanedTitle =>
          let p :=
            if cleanedTitle = "" then
              let dp := splitTitleAndBody cleanedBody
              (if dp.1 ≠ "" then dp.1 else cleanedTitle,
               if dp.2 ≠ "" then dp.2 else cleanedBody)
            else (cleanedTitle, cleanedBody)
          let title := p.1
          let body := if p.2 = "" then cleanedBody else p.2
          let dateText := formatTimestamp (items.getD 5 .null)
          let helpfulCount : Option Int := match items.getD 6 .null with
            | .num v => some (Int.tdiv v.num v.den)
            | .bool b => some (if b then 1 else 0)
            | _ => none
          let version : Option String := match items.getD 10 .null with
            | .str s => if pyStrip s ≠ "" then some (pyStrip s) else none
            | .num v => some (pyNumStr v)
            | .bool b => some (if b then "True" else "False")
            | _ => none
          if body = "" && title = "" then .ok none
          else .ok (some ⟨username, rating, title, body, dateText, helpfulCount, version, []⟩)
  | _ => .ok none

/-! ## `_parse_batchexecute_payload` -/

/-- Split a character list on newline characters. -/
def splitNl : List Char → List Char → List (List Char)
  | [], acc => [acc.reverse]
  | '\n' :: rest, acc => acc.reverse :: splitNl rest []
  | c :: rest, acc => splitNl rest (c :: acc)

/-- The XSSI anti-hijack prefix `)]}'`. -/
def xssiChars : List Char := [')', ']', Char.ofNat 125, Char.ofNat 39]

/-- Recognize a `["wrb.fr", "UsvDTd", payload, ...]` frame. -/
def wrbFrame? (chunk : JVal) : Option String :=
  match chunk with
  | .arr (c0 :: c1 :: c2 :: _) =>
    match c0, c1, c2 with
    | .str a, .str b, .str p =>
      if a = "wrb.fr" && b = "UsvDTd" then some p else none
    | _, _, _ => none
  | _ => none

/--
Scan candidate lines for a tagged frame's payload string, carrying the
`payload_str` state across lines.  The source records the first matching
frame of a line and leaves the chunk loop unconditionally, but leaves the
line loop only on `if payload_str:` — a Python truthiness test — so a
frame whose payload is the empty string does not stop the scan: a later
line may override it, and a recorded empty payload otherwise survives to
the inner JSON stage (where `json.loads("")` fails).
-/
def findPayloadStr (found : Option String) : List String → Option String
  | [] => found
  | line :: rest =>
    match jparse line with
    | some (.arr (c :: cs)) =>
      match (c :: cs).findSome? wrbFrame? with
      | some p => if p ≠ "" then some p else findPayloadStr (some p) rest
      | none => findPayloadStr found rest
    | _ => findPayloadStr found rest

/--
The candidate payload lines of a response: strip the anti-hijack prefix,
split on newlines, strip and drop empty lines, skip the first remaining
line (a length indicator).  The second conditional of the prefix strip
mirrors the source's unreachable `elif` for the prefix followed by a
newline.
-/
def payloadCandidateLines (rawText : String) : List String :=
  let sanitized0 := pyStripList rawText.data
  let sanitized :=
    if sanitized0.take 4 = xssiChars then sanitized0.drop 4
    else if sanitized0.take 5 = xssiChars ++ ['\n'] then sanitized0.drop 5
    else sanitized0
  ((((splitNl sanitized []).map pyStripList).filter (fun l => !l.isEmpty)).map
    (fun l => (⟨l⟩ : String))).tail

/-- Decode the inner payload: `payload[0]` is the entry list, `payload[1][1]`
the continuation token; entry-level `TypeError`s propagate. -/
def decodeReviewsPayload (payload : JVal) :
    Except String (List PlayStoreReview × Option String) :=
  let reviewsBlock : JVal := match payload with
    | .arr (x :: _) => x
    | _ => .arr []
  let nextToken : Option String := match payload with
    | .arr (_ :: x1 :: _) =>
      match x1 with
      | .arr (_ :: cand :: _) =>
        match cand with
        | .str s => if s ≠ "" then some s else none
        | _ => none
      | _ => none
    | _ => none
  match reviewsBlock with
  | .arr entries =>
    match entries.foldlM (fun acc e =>
        (match buildReviewFromEntry e with
         | .error er => .error er
         | .ok (some r) => .ok (acc ++ [r])
         | .ok none => .ok acc : Except String (List PlayStoreReview)))
        ([] : List PlayStoreReview) with
    | .error er => .error er
    | .ok reviews => .ok (reviews, nextToken)
  | _ => .ok ([], nextToken)

/--
`_parse_batchexecute_payload`: locate the tagged frame among the candidate
lines, JSON-parse the inner payload, decode entries and the continuation
token.  All framing and JSON failures yield `.ok ([], none)`; `.error`
models an uncaught entry-level `TypeError` from the builder.
-/
def parseBatchexecutePayload (rawText : String) :
    Except String (List PlayStoreReview × Option String) :=
  if rawText = "" then .ok ([], none)
  else
    match findPayloadStr none (payloadCandidateLines rawText) with
    | none => .ok ([], none)
    | some payloadStr =>
      match jparse payloadStr with
      | none => .ok ([], none)
      | some payload => decodeReviewsPayload payload

/-! ## `_extract_review_from_node`: the HTML-parser construction path

The per-field selector chains run against a markup node; their outcomes
enter as inputs and the decision logic of `_extract_review_from_node`
(lines 1079-1107) is modelled on top of them: a missing or empty username
discards the node, the body text is split into title/body, and a node
contributing neither title nor body is dropped.
-/
def extractReviewFromNode (rawUsername : Option String) (rating : Option PyNum)
    (date : String) (helpfulCount : Option Int) (version : Option String)
    (bodyText : String) : Option PlayStoreReview :=
  match rawUsername with
  | none => none
  | some u =>
    if u = "" then none
    else
      let username := anonymizeUser (some u)
      let tb := splitTitleAndBody bodyText
      if tb.1 = "" && tb.2 = "" then none
      else
        some ⟨username, rating, tb.1, if tb.2 ≠ "" then tb.2 else bodyText,
          date, helpfulCount, version, []⟩

/-! ## `_fetch_reviews_batchexecute`: the paginated primary channel

The network call and decode of one page are abstracted as an oracle indexed
by the 1-based request counter.  `fail` models an HTTP status other than
200 or any exception caught by the loop's `except` (including a decoder
`TypeError`); `page` carries the decoded `(batch, next_token)` pair. -/

inductive FetchStep where
  | fail : FetchStep
  | page (batch : List PlayStoreReview) (next : Option String) : FetchStep

/--
The pagination loop body.  The fuel is the number of requests still allowed
(`max_requests - request_count`, initially 50), so running out of fuel is
exactly the `request_count < max_requests` guard going false.
-/
def fetchGo (fetchDecode : Nat → FetchStep) (limit : Nat) :
    Nat → List PlayStoreReview → List String → Nat → List PlayStoreReview × Nat
  | 0, reviews, _, count => (reviews, count)
  | fuel + 1, reviews, seen, count =>
    if reviews.length < limit then
      let count' := count + 1
      match fetchDecode count' with
      | .fail => (reviews, count')
      | .page batch next =>
        if batch.isEmpty then (reviews, count')
        else
          let reviews' := reviews ++ batch.take (limit - reviews.length)
          match next with
          | none => (reviews', count')
          | some t =>
            if t = "" ∨ t ∈ seen then (reviews', count')
            else fetchGo fetchDecode limit fuel reviews' (t :: seen) count'
    else (reviews, count)

def maxBatchexecuteRequests : Nat := 50

/-- `_fetch_reviews_batchexecute`, returning the collected reviews and the
number of requests performed. -/
def fetchReviewsBatchexecute (fetchDecode : Nat → FetchStep) (limit : Nat) :
    List PlayStoreReview × Nat :=
  fetchGo fetchDecode limit maxBatchexecuteRequests [] [] 0

/-! ## The cross-channel merge and fallback steps of `get_reviews` -/

/-- The dedup key `rev.username + rev.date + rev.body` used at the modal
merge (the review's title does not participate). -/
def reviewSignature (r : PlayStoreReview) : String := r.username ++ r.date ++ r.body

/--
The modal merge of `get_reviews`: keep all already-collected reviews, then
append each modal review whose signature was not seen yet.
-/
def mergeModalReviews (reviews modalReviews : List PlayStoreReview) :
    List PlayStoreReview :=
  (modalReviews.foldl
    (fun acc rev =>
      if reviewSignature rev ∈ acc.2 then acc
      else (acc.1 ++ [rev], reviewSignature rev :: acc.2))
    (reviews, reviews.map reviewSignature)).1

/-- The direct-fetch fallback of `get_reviews`: the parsed direct-fetch
reviews replace the collected list exactly when strictly more numerous. -/
def directFetchStep (reviews directReviews : List PlayStoreReview) :
    List PlayStoreReview :=
  if directReviews.length > reviews.length then directReviews else reviews

/-! ## `core.privacy.strip_redacted_text` (pure helpers used by redaction) -/

def redactedToken : String := "[REDACTED]"

/-- `is_redacted_value`: the bare token or `[REDACTED]_<A-Z0-9 suffix>`. -/
def isRedactedValue (value : String) : Bool :=
  let normalized := pyStrip value
  if normalized = "" then false
  else if normalized = redactedToken then true
  else
    match normalized.data.drop 10 with
    | '_' :: rest =>
      normalized.data.take 10 = redactedToken.data && !rest.isEmpty &&
        rest.all (fun c => ('A' ≤ c && c ≤ 'Z') || ('0' ≤ c && c ≤ '9'))
    | _ => false

/-- Python `str.replace`, all non-overlapping occurrences left to right. -/
def replaceAllGo (pat rep : List Char) : Nat → List Char → List Char
  | 0, text => text
  | _ + 1, [] => []
  | fuel + 1, c :: rest =>
    if (c :: rest).take pat.length = pat && !pat.isEmpty then
      rep ++ replaceAllGo pat rep fuel ((c :: rest).drop pat.length)
    else c :: replaceAllGo pat rep fuel rest

/-- `strip_redacted_text`: drop placeholder-only values, blank out embedded
placeholder tokens, collapse whitespace. -/
def stripRedactedText (value : String) : String :=
  let normalized := pyStrip value
  if normalized = "" || isRedactedValue normalized then ""
  else
    let cleaned :=
      replaceAllGo redactedToken.data [' '] (normalized.data.length + 1) normalized.data
    ⟨pyStripList (collapseWs cleaned false)⟩

/-! ## `_redact_reviews` and `get_reviews`

`redact_text` (Presidio/regex masking) and the sentiment enricher are
external collaborators; they enter as function parameters.  The enricher's
`try`/`except` always produces a dictionary value, so it is modelled as a
total function to an association list. -/

/-- The loop body of `_redact_reviews` on one review. -/
def redactOneReview (redactText : String → Option String → String)
    (analyze : String → Option String → Option PyNum → Option String → List (String × String))
    (language : Option String) (review : PlayStoreReview) : PlayStoreReview :=
  let rawTitle := review.title
  let rawBody := review.body
  let redactedTitle := if rawTitle ≠ "" then redactText rawTitle language else ""
  let redactedBody := if rawBody ≠ "" then redactText rawBody language else ""
  let analysisTitle := stripRedactedText redactedTitle
  let analysisBody := stripRedactedText redactedBody
  let analysis :=
    if analysisBody ≠ "" || analysisTitle ≠ "" then
      analyze analysisBody (if analysisTitle ≠ "" then some analysisTitle else none)
        review.rating language
    else []
  { review with title := redactedTitle, body := redactedBody, analysis := analysis }

def redactReviews (redactText : String → Option String → String)
    (analyze : String → Option String → Option PyNum → Option String → List (String × String))
    (language : Option String) (reviews : List PlayStoreReview) : List PlayStoreReview :=
  reviews.map (redactOneReview redactText analyze language)

/--
The observable outcomes of the four acquisition attempts inside one
`get_reviews` call:

* `primary`: `none` models `_fetch_reviews_batchexecute` raising (caught by
  the surrounding `except`); `some l` the list it returned;
* `showAll`: the parse of the `showAllReviews` markup, `none` when the
  markup load failed;
* `modal`: the parse of the review-modal markup, `none` when that load
  failed;
* `direct`: the parse of the static-fetch markup, `none` when it failed.
-/
structure ChannelEnv where
  primary : Option (List PlayStoreReview)
  showAll : Option (List PlayStoreReview)
  modal : Option (List PlayStoreReview)
  direct : Option (List PlayStoreReview)

/-- The primary block of `get_reviews`: `reviews = api_reviews` when the
channel returned a non-empty list, else the empty list (also on a caught
exception, modelled by `none`). -/
def primaryStage (p : Option (List PlayStoreReview)) : List PlayStoreReview :=
  match p with
  | none => []
  | some api => if !api.isEmpty then api else []

/-- The `showAllReviews` fallback block: only entered when nothing was
collected; a non-empty parse replaces the collected list. -/
def showAllStage (cur : List PlayStoreReview) (s : Option (List PlayStoreReview)) :
    List PlayStoreReview :=
  if cur.isEmpty then
    match s with
    | some l => if !l.isEmpty then l else cur
    | none => cur
  else cur

/-- The modal/direct fallback block: when the yield is below the limit,
merge a non-empty modal parse by signature, then let the direct fetch
replace the list when strictly longer. -/
def fallbackStage (limit : Nat) (cur : List PlayStoreReview)
    (m d : Option (List PlayStoreReview)) : List PlayStoreReview :=
  if cur.isEmpty || cur.length < limit then
    let afterModal := match m with
      | some l => if !l.isEmpty then mergeModalReviews cur l else cur
      | none => cur
    if afterModal.length < limit then
      match d with
      | some l => directFetchStep afterModal l
      | none => afterModal
    else afterModal
  else cur

/-- `get_reviews`: clamp the limit, run the cascade, merge, truncate to the
clamped limit, redact. -/
def getReviews (env : ChannelEnv)
    (redactText : String → Option String → String)
    (analyze : String → Option String → Option PyNum → Option String → List (String × String))
    (language : Option String) (limit0 : Nat) : List PlayStoreReview :=
  let limit := max 1 limit0
  redactReviews redactText analyze language
    ((fallbackStage limit (showAllStage (primaryStage env.primary) env.showAll)
        env.modal env.direct).take limit)

/-! ## Concrete instruments: collaborator instances and recorded fixtures -/

/-- An identity instance of the `redact_text` collaborator. -/
def idRedactText (t : String) (_ : Option String) : String := t

/-- An enricher instance returning an empty analysis map. -/
def noAnalysis (_ : String) (_ : Option String) (_ : Option PyNum)
    (_ : Option String) : List (String × String) := []

/-- The review decoded from the entry `[null, null, 5, "Nice.", "Solid app"]`. -/
def rNice : PlayStoreReview :=
  ⟨"anon", some ⟨5, 1, true⟩, "Nice.", "Solid app", "", none, none, []⟩

/-- A response whose payload carries the same entry twice. -/
def fixtureDup : String :=
  "123\n[[\"wrb.fr\",\"UsvDTd\",\"[[[null,null,5,\\\"Nice.\\\",\\\"Solid app\\\"],[null,null,5,\\\"Nice.\\\",\\\"Solid app\\\"]],null]\",null,\"generic\"]]"

/-- The review decoded from `[null, null, k, "Ok.", b]`. -/
def ratedReview (k : Int) (b : String) : PlayStoreReview :=
  ⟨"anon", some ⟨k, 1, true⟩, "Ok.", b, "", none, none, []⟩

/-- A response page whose five entries carry ratings 1, 2, 3, 4, 5. -/
def fixtureRatings : String :=
  "99\n[[\"wrb.fr\",\"UsvDTd\",\"[[[null,null,1,\\\"Ok.\\\",\\\"B1\\\"],[null,null,2,\\\"Ok.\\\",\\\"B2\\\"],[null,null,3,\\\"Ok.\\\",\\\"B3\\\"],[null,null,4,\\\"Ok.\\\",\\\"B4\\\"],[null,null,5,\\\"Ok.\\\",\\\"B5\\\"]],null]\",null,\"generic\"]]"

/-- A review with few populated fields (primary-channel version). -/
def revSparse : PlayStoreReview := ⟨"anon", none, "", "Good app", "", none, none, []⟩

/-- A review with the same dedup signature as `revSparse` but more
populated fields (modal-channel version). -/
def revRich : PlayStoreReview :=
  ⟨"anon", some ⟨5, 1, true⟩, "Great.", "Good app", "", some 3, some "2.0", []⟩

/-- Three pairwise distinct minimal reviews used in fallback scenarios. -/
def revAa : PlayStoreReview := ⟨"anon", none, "", "Aa", "", none, none, []⟩

def revBb : PlayStoreReview := ⟨"anon", none, "", "Bb", "", none, none, []⟩

def revCc : PlayStoreReview := ⟨"anon", none, "", "Cc", "", none, none, []⟩

/-- Text with a malformed anti-hijack prefix and no tagged frame. -/
def fixtureBadPre : String := ")]x garbage\n[7]"

/-- Valid outer JSON without any `wrb.fr`/`UsvDTd` frame. -/
def fixtureNoFrame : String := "42\n[[\"wrb.fr\",\"OTHER\",\"x\"],[\"foo\"]]"

/-- A chunk line that is not JSON at all. -/
def fixtureBadOuter : String := "42\nthis is not json"

/-- A tagged frame whose inner payload is not valid JSON. -/
def fixtureBadInner : String := "42\n[[\"wrb.fr\",\"UsvDTd\",\"not valid json\",null]]"

/-- A tagged frame whose single entry carries the number `7` as its body. -/
def fixtureTypeErr : String :=
  "12\n[[\"wrb.fr\",\"UsvDTd\",\"[[[null,null,5,\\\"T\\\",7]],null]\"]]"

/-- A tagged frame whose payload string is empty, with no later frame. -/
def fixtureEmptyFrame : String := "5\n[[\"wrb.fr\",\"UsvDTd\",\"\"]]"

/-- An empty-payload frame followed on a later line by a real frame. -/
def fixtureEmptyThenReal : String :=
  "5\n[[\"wrb.fr\",\"UsvDTd\",\"\"]]\n[[\"wrb.fr\",\"UsvDTd\",\"[[[null,null,5,\\\"Nice.\\\",\\\"Solid app\\\"]],null]\",null,\"generic\"]]"

/-- An empty-payload frame followed on a later line by a frame whose entry
carries a numeric body. -/
def fixtureEmptyThenBad : String :=
  "5\n[[\"wrb.fr\",\"UsvDTd\",\"\"]]\n[[\"wrb.fr\",\"UsvDTd\",\"[[[null,null,5,\\\"T\\\",7]],null]\"]]"

/-- An empty-payload frame whose own line carries a second, real frame:
the source's chunk loop stops at the first frame of a line, so the second
frame of the same line is never consulted. -/
def fixtureEmptySameLine : String :=
  "5\n[[\"wrb.fr\",\"UsvDTd\",\"\"],[\"wrb.fr\",\"UsvDTd\",\"[[],null]\"]]"

/-- An oracle serving one fixed page and empty pages afterwards. -/
def singlePageOracle (batch : List PlayStoreReview) : Nat → FetchStep :=
  fun n => if n = 1 then .page batch none else .page [] none

/-! ## Spec-side and proof-side auxiliary definitions -/

/--
Following the spec's tie-break wording only (not the source, which has no
such notion): the number of non-empty fields of a review, used to compare
"field completeness" of two versions of the same review.
-/
def specNonEmptyFieldCount (r : PlayStoreReview) : Nat :=
  (if r.username ≠ "" then 1 else 0) + (if r.rating.isSome then 1 else 0) +
    (if r.title ≠ "" then 1 else 0) + (if r.body ≠ "" then 1 else 0) +
    (if r.date ≠ "" then 1 else 0) + (if r.helpfulCount.isSome then 1 else 0) +
    (if r.version.isSome then 1 else 0)

/-- Proof-side characterization of the modal merge: the modal reviews kept,
given the signatures already seen. -/
def mergeKept (seen : List String) : List PlayStoreReview → List PlayStoreReview
  | [] => []
  | r :: rs =>
    if reviewSignature r ∈ seen then mergeKept seen rs
    else r :: mergeKept (reviewSignature r :: seen) rs

/-- Every review any channel of the environment can deliver has a title or
a body. -/
def EnvTitleBodyInv (env : ChannelEnv) : Prop :=
  ∀ l, (env.primary = some l ∨ env.showAll = some l ∨ env.modal = some l ∨
      env.direct = some l) →
    ∀ r ∈ l, r.title ≠ "" ∨ r.body ≠ ""

/-! ## Helper lemmas -/

theorem strData_append (a b : String) : (a ++ b).data = a.data ++ b.data := rfl

theorem strExt {a b : String} (h : a.data = b.data) : a = b := by
  cases a
  cases b
  exact congrArg String.mk h

theorem pyLower_empty_iff (s : String) : pyLower s = "" ↔ s = "" := by
  constructor
  · intro h
    cases s with
    | mk l =>
      apply strExt
      have hd := congrArg String.data h
      simpa [pyLower] using hd
  · intro h
    rw [h]
    rfl

theorem anonymizeUser_blank (u : String) (h : pyStrip u = "") :
    anonymizeUser (some u) = "anon" := by
  by_cases h1 : u = ""
  · simp [anonymizeUser, h1]
  · simp [anonymizeUser, h1, h]

theorem anonymizeUser_nonblank (u : String) (h : pyStrip u ≠ "") :
    anonymizeUser (some u) = "anon_" ++ authorDigest8 u := by
  have hu : u ≠ "" := by
    intro he
    apply h
    rw [he]
    rfl
  simp only [anonymizeUser, authorDigest8, if_neg hu, if_neg h]

/-- The anonymizer only depends on the stripped, lowercased author name. -/
theorem anonymizeUser_congr (u v : String)
    (h : pyLower (pyStrip u) = pyLower (pyStrip v)) :
    anonymizeUser (some u) = anonymizeUser (some v) := by
  by_cases hu : pyStrip u = ""
  · have hv : pyStrip v = "" := by
      rw [hu] at h
      exact (pyLower_empty_iff _).mp h.symm
    rw [anonymizeUser_blank _ hu, anonymizeUser_blank _ hv]
  · have hv : pyStrip v ≠ "" := by
      intro hv0
      apply hu
      rw [hv0] at h
      exact (pyLower_empty_iff _).mp h
    rw [anonymizeUser_nonblank _ hu, anonymizeUser_nonblank _ hv]
    unfold authorDigest8
    rw [h]

theorem strTake5_anonMarker (x : String) : strTake 5 ("anon_" ++ x) = "anon_" := by
  apply strExt
  show (("anon_" ++ x).data).take 5 = "anon_".data
  rw [strData_append]
  exact List.take_left "anon_".data x.data

theorem anonMarker_append_inj (x y : String) :
    ("anon_" ++ x = "anon_" ++ y) ↔ x = y := by
  constructor
  · intro h
    have hd := congrArg String.data h
    rw [strData_append, strData_append] at hd
    exact strExt (List.append_cancel_left hd)
  · intro h
    rw [h]

/-!
### Claim C9 — author anonymization

The claim's first parts hold: the anonymizer is a deterministic pure
function, absent or whitespace-only authors map to `"anon"`.  Its
distinctness part is false: the raw name is stripped and lowercased before
hashing, so the distinct raw strings `"Alice"` and `"alice"` collide with
probability 1.
-/

/--
Claim C9 (counterexample): the two different raw author strings `"Alice"`
and `"alice"` receive the identical author token, refuting the claim that
distinct raw author strings map to distinct tokens (with overwhelming
probability): this collision is deterministic.
-/
theorem anonymizeUser_case_collision :
    "Alice" ≠ "alice" ∧
      anonymizeUser (some "Alice") = anonymizeUser (some "alice") := by
  constructor
  · decide
  · exact anonymizeUser_congr _ _ (by decide)

/--
Claim C9 (amended): the anonymizer is deterministic; an absent or
whitespace-only author maps to `"anon"`; tokens of two non-blank authors
coincide exactly when the truncated digests of their stripped, lowercased
names coincide (so case- or whitespace-variants of one name collide, and
names differing after normalization collide only if the 8-hex-digit
truncated SHA-256 digests collide); a non-blank author's token is
`"anon_"` plus the truncated digest, hence never equals a raw display name
that does not itself start with `"anon_"`.
-/
theorem anonymizeUser_spec :
    (∀ u v : Option String, u = v → anonymizeUser u = anonymizeUser v) ∧
      anonymizeUser none = "anon" ∧
      (∀ s, pyStrip s = "" → anonymizeUser (some s) = "anon") ∧
      (∀ s t, pyStrip s ≠ "" → pyStrip t ≠ "" →
        (anonymizeUser (some s) = anonymizeUser (some t) ↔
          authorDigest8 s = authorDigest8 t)) ∧
      (∀ s, pyStrip s ≠ "" → strTake 5 s ≠ "anon_" → anonymizeUser (some s) ≠ s) := by
  refine ⟨?_, rfl, ?_, ?_, ?_⟩
  · intro u v h
    rw [h]
  · intro s h
    exact anonymizeUser_blank s h
  · intro s t hs ht
    rw [anonymizeUser_nonblank _ hs, anonymizeUser_nonblank _ ht]
    exact anonMarker_append_inj _ _
  · intro s hs htake heq
    apply htake
    rw [← heq, anonymizeUser_nonblank _ hs, strTake5_anonMarker]

/-- Claim C9 (witness): the amended theorem applied to the author `"Bob"`. -/
theorem anonymizeUser_spec_witness :
    pyStrip "Bob" ≠ "" ∧ strTake 5 "Bob" ≠ "anon_" ∧
      anonymizeUser (some "Bob") ≠ "Bob" :=
  ⟨by decide, by decide,
    anonymizeUser_spec.2.2.2.2 "Bob" (by decide) (by decide)⟩

/--
Claim C10: raw author strings that agree after stripping and lowercasing
always receive the identical token, because the display name is stripped
and lowercased before hashing.
-/
theorem anonymizeUser_normalization_collision (u v : String)
    (h : pyLower (pyStrip u) = pyLower (pyStrip v)) :
    anonymizeUser (some u) = anonymizeUser (some v) :=
  anonymizeUser_congr u v h

/-- Claim C10 (witness): instantiated at `"bob"` and `" BOB "`. -/
theorem anonymizeUser_normalization_collision_witness :
    pyLower (pyStrip "bob") = pyLower (pyStrip " BOB ") ∧
      anonymizeUser (some "bob") = anonymizeUser (some " BOB ") :=
  ⟨by decide, anonymizeUser_normalization_collision "bob" " BOB " (by decide)⟩

/-! ## The modal merge: characterization lemmas -/

theorem mergeFold_go (b : List PlayStoreReview) :
    ∀ (m : List PlayStoreReview) (e : List String),
      (b.foldl (fun acc rev =>
        if reviewSignature rev ∈ acc.2 then acc
        else (acc.1 ++ [rev], reviewSignature rev :: acc.2)) (m, e)).1 =
      m ++ mergeKept e b := by
  induction b with
  | nil =>
    intro m e
    simp [mergeKept]
  | cons r rs ih =>
    intro m e
    simp only [List.foldl_cons]
    by_cases h : reviewSignature r ∈ e
    · simp only [if_pos h, mergeKept, ih]
  -- the else branch continues from the extended accumulator
    · simp only [if_neg h, mergeKept, ih]
      simp

theorem mergeModalReviews_eq (a b : List PlayStoreReview) :
    mergeModalReviews a b = a ++ mergeKept (a.map reviewSignature) b := by
  unfold mergeModalReviews
  exact mergeFold_go b a (a.map reviewSignature)

theorem mem_mergeKept {r : PlayStoreReview} :
    ∀ {seen : List String} {b : List PlayStoreReview},
      r ∈ mergeKept seen b → r ∈ b ∧ reviewSignature r ∉ seen := by
  intro seen b
  induction b generalizing seen with
  | nil =>
    intro h
    simp [mergeKept] at h
  | cons x xs ih =>
    intro h
    by_cases hx : reviewSignature x ∈ seen
    · rw [mergeKept, if_pos hx] at h
      have h2 := ih h
      exact ⟨List.mem_cons_of_mem _ h2.1, h2.2⟩
    · rw [mergeKept, if_neg hx] at h
      rcases List.mem_cons.mp h with h1 | h1
      · subst h1
        exact ⟨List.mem_cons_self _ _, hx⟩
      · have h2 := ih h1
        exact ⟨List.mem_cons_of_mem _ h2.1,
          fun hs => h2.2 (List.mem_cons_of_mem _ hs)⟩

theorem mergeKept_sigs_nodup :
    ∀ (seen : List String) (b : List PlayStoreReview),
      ((mergeKept seen b).map reviewSignature).Nodup := by
  intro seen b
  induction b generalizing seen with
  | nil => simp [mergeKept]
  | cons x xs ih =>
    by_cases hx : reviewSignature x ∈ seen
    · rw [mergeKept, if_pos hx]
      exact ih seen
    · rw [mergeKept, if_neg hx]
      simp only [List.map_cons, List.nodup_cons]
      constructor
      · intro hmem
        obtain ⟨r, hr, hs⟩ := List.mem_map.mp hmem
        exact (mem_mergeKept hr).2 (hs ▸ List.mem_cons_self _ _)
      · exact ih _

/-!
### Claim C2 — pairwise distinct identity signatures

False on the code: the primary channel never deduplicates its own batches,
and the dedup key omits the title.  A payload carrying the same entry twice
flows through decode, the pagination loop and `get_reviews` into an output
with a repeated signature.
-/

/--
Claim C2 (counterexample): a recorded response whose payload carries the
same entry twice decodes to two identical reviews; the primary channel
returns both, and the final `get_reviews` output contains two reviews with
the same identity signature.
-/
theorem duplicate_signatures_survive :
    parseBatchexecutePayload fixtureDup = .ok ([rNice, rNice], none) ∧
      fetchReviewsBatchexecute (fun _ => .page [rNice, rNice] none) 2 =
        ([rNice, rNice], 1) ∧
      ¬ ((getReviews ⟨some [rNice, rNice], none, none, none⟩ idRedactText noAnalysis
          none 2).map reviewSignature).Nodup := by
  refine ⟨by rfl, by decide, by decide⟩

/--
Claim C2 (amended): the cross-channel modal merge preserves signature
distinctness — if the already-collected reviews have pairwise distinct
signatures (key `username ++ date ++ body`; the title does not
participate), then so does the merged list — but reviews collected by the
primary channel alone are never deduplicated, so a duplicate arriving in
the primary batches survives to the output.
-/
theorem mergeModalReviews_nodup_signatures (a b : List PlayStoreReview)
    (h : (a.map reviewSignature).Nodup) :
    ((mergeModalReviews a b).map reviewSignature).Nodup := by
  rw [mergeModalReviews_eq, List.map_append, List.nodup_append]
  refine ⟨h, mergeKept_sigs_nodup _ _, ?_⟩
  intro s hs hs'
  obtain ⟨r, hr, rfl⟩ := List.mem_map.mp hs'
  exact (mem_mergeKept hr).2 hs

/-- Claim C2 (witness): the amended theorem applied to a concrete merge. -/
theorem mergeModalReviews_nodup_signatures_witness :
    (([rNice] : List PlayStoreReview).map reviewSignature).Nodup ∧
      ((mergeModalReviews [rNice] [rNice, revAa]).map reviewSignature).Nodup :=
  ⟨by decide, mergeModalReviews_nodup_signatures [rNice] [rNice, revAa] (by decide)⟩

/-!
### Claim C6 — completeness-based tie-break

False on the code: the merge keeps the first-seen version unconditionally;
field completeness is never consulted.
-/

/--
Claim C6 (counterexample): `revSparse` (collected first) and `revRich`
(modal channel) share one identity signature and `revRich` has strictly
more non-empty fields, yet the merged result keeps `revSparse`: channel
order alone decides which version survives.
-/
theorem completeness_tiebreak_refuted :
    reviewSignature revSparse = reviewSignature revRich ∧
      specNonEmptyFieldCount revSparse < specNonEmptyFieldCount revRich ∧
      getReviews ⟨some [revSparse], none, some [revRich], none⟩ idRedactText
        noAnalysis none 5 = [revSparse] := by
  refine ⟨by decide, by decide, by decide⟩

/--
Claim C6 (amended): when one identity signature appears in two channels,
the version from the earlier channel wins unconditionally: the merged list
starts with exactly the already-collected reviews, and a modal review
enters only when its signature is not already present.
-/
theorem mergeModalReviews_first_seen_precedence :
    (∀ (a b : List PlayStoreReview), (mergeModalReviews a b).take a.length = a) ∧
      (∀ (a b : List PlayStoreReview) (r : PlayStoreReview),
        r ∈ mergeModalReviews a b →
          r ∈ a ∨ (r ∈ b ∧ reviewSignature r ∉ a.map reviewSignature)) := by
  constructor
  · intro a b
    rw [mergeModalReviews_eq]
    exact List.take_left a _
  · intro a b r hr
    rw [mergeModalReviews_eq] at hr
    rcases List.mem_append.mp hr with h | h
    · exact .inl h
    · exact .inr (mem_mergeKept h)

/-- Claim C6 (witness): the amended theorem applied to a concrete merge. -/
theorem mergeModalReviews_first_seen_precedence_witness :
    (mergeModalReviews [revSparse] [revRich]).take 1 = [revSparse] ∧
      (revSparse ∈ ([revSparse] : List PlayStoreReview) ∨
        (revSparse ∈ ([revRich] : List PlayStoreReview) ∧
          reviewSignature revSparse ∉
            ([revSparse] : List PlayStoreReview).map reviewSignature)) :=
  ⟨mergeModalReviews_first_seen_precedence.1 [revSparse] [revRich],
    mergeModalReviews_first_seen_precedence.2 [revSparse] [revRich] revSparse
      (by decide)⟩

/-!
### Claim C7 — tertiary merge

False on the code: the direct-fetch fallback never merges; it replaces the
whole collected list when strictly longer and discards its own result
otherwise.
-/

/--
Claim C7 (counterexample): with one review collected earlier and two parsed
by the direct fetch, the output is exactly the direct-fetch list and the
earlier review is dropped — not merged by identity signature.
-/
theorem tertiary_merge_refuted :
    getReviews ⟨some [revAa], none, none, some [revBb, revCc]⟩ idRedactText
        noAnalysis none 5 = [revBb, revCc] ∧
      revAa ∉ getReviews ⟨some [revAa], none, none, some [revBb, revCc]⟩
        idRedactText noAnalysis none 5 := by
  refine ⟨by decide, by decide⟩

/--
Claim C7 (amended): when the yield is still below the limit, the
direct-fetch reviews replace the collected list entirely exactly when they
are strictly more numerous, and are discarded entirely otherwise; no
signature-based merge happens at this step.
-/
theorem directFetchStep_replace_or_discard :
    ∀ (reviews directReviews : List PlayStoreReview),
      (directFetchStep reviews directReviews = directReviews ∧
        reviews.length < directReviews.length) ∨
      (directFetchStep reviews directReviews = reviews ∧
        directReviews.length ≤ reviews.length) := by
  intro a b
  unfold directFetchStep
  by_cases h : b.length > a.length
  · exact .inl ⟨if_pos h, h⟩
  · exact .inr ⟨if_neg h, le_of_not_lt h⟩

/-! ## The pagination loop: step lemmas -/

theorem fetchGo_count_le (d : Nat → FetchStep) (limit : Nat) :
    ∀ (fuel : Nat) (reviews : List PlayStoreReview) (seen : List String) (count : Nat),
      (fetchGo d limit fuel reviews seen count).2 ≤ count + fuel := by
  intro fuel
  induction fuel with
  | zero =>
    intro reviews seen count
    simp [fetchGo]
  | succ n ih =>
    intro reviews seen count
    simp only [fetchGo]
    split
    · split
      · simp
      · split
        · simp
        · split
          · simp
          · split
            · simp
            · exact (ih _ _ _).trans (by omega)
    · omega

theorem fetchGo_same_cursor (B : List PlayStoreReview) (t : String) (limit : Nat)
    (hB : B ≠ []) (hlen : B.length < limit) (ht : t ≠ "") :
    ∀ fuel, fetchGo (fun _ => .page B (some t)) limit (fuel + 2) [] [] 0 =
      (B ++ B.take (limit - B.length), 2) := by
  intro fuel
  have hBe : B.isEmpty = false := by
    cases B
    · exact absurd rfl hB
    · rfl
  have h0 : (0 : Nat) < limit := lt_of_le_of_lt (Nat.zero_le _) hlen
  have hnogo : ¬ (t = "" ∨ t ∈ ([] : List String)) := by simp [ht]
  have htake : B.take limit = B := List.take_of_length_le (le_of_lt hlen)
  show fetchGo _ limit ((fuel + 1) + 1) [] [] 0 = _
  rw [fetchGo]
  simp only [List.length_nil, if_pos h0, hBe, Bool.false_eq_true, if_false,
    if_neg hnogo, List.nil_append, Nat.sub_zero, htake, Nat.zero_add]
  rw [fetchGo]
  simp only [if_pos hlen, hBe, Bool.false_eq_true, if_false,
    if_pos (show t = "" ∨ t ∈ [t] from Or.inr (List.mem_cons_self t []))]

theorem fetch_same_cursor (B : List PlayStoreReview) (t : String) (limit : Nat)
    (hB : B ≠ []) (hlen : B.length < limit) (ht : t ≠ "") :
    fetchReviewsBatchexecute (fun _ => .page B (some t)) limit =
      (B ++ B.take (limit - B.length), 2) :=
  fetchGo_same_cursor B t limit hB hlen ht 48

theorem fetch_empty_batch (next : Option String) (limit : Nat) (h : 1 ≤ limit) :
    fetchReviewsBatchexecute (fun _ => .page [] next) limit = ([], 1) := by
  have h0 : ([] : List PlayStoreReview).length < limit := h
  show fetchGo _ limit (49 + 1) [] [] 0 = _
  rw [fetchGo]
  rw [if_pos h0]
  rfl

theorem fetch_single_page (B : List PlayStoreReview) (limit : Nat) (h : 1 ≤ limit) :
    fetchReviewsBatchexecute (singlePageOracle B) limit = (B.take limit, 1) := by
  have h0 : (0 : Nat) < limit := h
  show fetchGo _ limit (49 + 1) [] [] 0 = _
  rw [fetchGo]
  simp only [List.length_nil, if_pos h0]
  by_cases hB : B.isEmpty
  · have hBnil : B = [] := by
      cases B
      · rfl
      · exact absurd hB (by simp)
    subst hBnil
    simp [singlePageOracle]
  · simp only [Bool.not_eq_true] at hB
    simp [singlePageOracle, hB]

/-!
### Claim C4 — pagination stop policy

The "seen cursor" regression scenario holds: a decoder returning the same
non-empty cursor with a non-empty under-limit batch causes exactly one
extra page fetch.  But the claimed four-condition policy is not exact: the
loop also stops on an empty decoded batch (and on a fetch failure), a case
in which all four claimed conditions say "continue".
-/

/--
Claim C4 (counterexample): a decoder returning an empty batch with a fresh
non-empty cursor makes the loop halt after one fetch, although the
collected count (0) is below the target (5), the cursor `"T"` is non-empty
and unseen, and the page index (1) is below the maximum (50) — so the
claimed "stops exactly when ..." policy is violated.
-/
theorem cursor_policy_refuted :
    fetchReviewsBatchexecute (fun _ => .page [] (some "T")) 5 = ([], 1) ∧
      0 < 5 ∧ "T" ≠ "" ∧ "T" ∉ ([] : List String) ∧ 1 < 50 := by
  refine ⟨by decide, by decide, by decide, by decide, by decide⟩

/--
Claim C4 (amended): the loop stops when, before a fetch, the collected
count has reached the target or the request count has reached 50; or,
after a fetch and decode, when the decoded batch is empty, the next cursor
is null/empty, or the next cursor was already seen; otherwise it records
the cursor as seen and continues.  In particular (i) a decoder returning
the same non-empty cursor with a non-empty under-limit batch on every page
causes exactly one extra page fetch (2 in total); (ii) a decoder returning
an empty batch halts the loop after its first fetch; (iii) the loop never
performs more than 50 requests.
-/
theorem cursor_loop_spec :
    (∀ (B : List PlayStoreReview) (t : String) (limit : Nat),
        B ≠ [] → B.length < limit → t ≠ "" →
        fetchReviewsBatchexecute (fun _ => .page B (some t)) limit =
          (B ++ B.take (limit - B.length), 2)) ∧
      (∀ (next : Option String) (limit : Nat), 1 ≤ limit →
        fetchReviewsBatchexecute (fun _ => .page [] next) limit = ([], 1)) ∧
      (∀ (d : Nat → FetchStep) (limit : Nat),
        (fetchReviewsBatchexecute d limit).2 ≤ maxBatchexecuteRequests) :=
  ⟨fetch_same_cursor, fetch_empty_batch, fun d limit => by
    have h := fetchGo_count_le d limit maxBatchexecuteRequests [] [] 0
    simpa [fetchReviewsBatchexecute] using h⟩

/-- Claim C4 (witness): the amended theorem at a concrete one-review page
with the constant cursor `"T"` and limit 10. -/
theorem cursor_loop_spec_witness :
    fetchReviewsBatchexecute (fun _ => .page [rNice] (some "T")) 10 =
      ([rNice, rNice], 2) :=
  (cursor_loop_spec.1 [rNice] "T" 10 (by decide) (by decide) (by decide)).trans
    (by decide)

/-!
### Claim C8 — rating-bound filtering

False on the code: `_fetch_reviews_batchexecute` has no `min_rating` or
`max_rating` parameter, applies no per-entry rating filter and keeps no
`skipped_rating` counter (such logic exists only in the separate App Store
enrichment module).  Every decoded entry is appended until the limit.
-/

/--
Claim C8 (counterexample): a page whose decoded entries carry ratings
1..5 contributes all five reviews — including those rated 1 and 2 —
to the primary channel's result, refuting the claimed `[3,4,5]` yield
(and there is no `skipped_rating` counter to equal 2).
-/
theorem rating_filter_refuted :
    parseBatchexecutePayload fixtureRatings =
      .ok ([ratedReview 1 "B1", ratedReview 2 "B2", ratedReview 3 "B3",
            ratedReview 4 "B4", ratedReview 5 "B5"], none) ∧
      (fetchReviewsBatchexecute (singlePageOracle
          [ratedReview 1 "B1", ratedReview 2 "B2", ratedReview 3 "B3",
           ratedReview 4 "B4", ratedReview 5 "B5"]) 10).1.map
            (fun r => r.rating) =
        [some ⟨1, 1, true⟩, some ⟨2, 1, true⟩, some ⟨3, 1, true⟩,
         some ⟨4, 1, true⟩, some ⟨5, 1, true⟩] := by
  refine ⟨by rfl, by decide⟩

/--
Claim C8 (amended): the primary channel applies no rating filtering at
all: for a single decoded page, every decoded review is appended, up to
the limit, regardless of its rating, and the loop stops after that one
request.
-/
theorem primary_channel_no_rating_filter (B : List PlayStoreReview)
    (limit : Nat) (h : 1 ≤ limit) :
    fetchReviewsBatchexecute (singlePageOracle B) limit = (B.take limit, 1) :=
  fetch_single_page B limit h

/-- Claim C8 (witness): the amended theorem at the rated five-review page. -/
theorem primary_channel_no_rating_filter_witness :
    fetchReviewsBatchexecute (singlePageOracle
        [ratedReview 1 "B1", ratedReview 2 "B2", ratedReview 3 "B3",
         ratedReview 4 "B4", ratedReview 5 "B5"]) 3 =
      ([ratedReview 1 "B1", ratedReview 2 "B2", ratedReview 3 "B3"], 1) :=
  (primary_channel_no_rating_filter _ 3 (by decide)).trans (by decide)

/-!
### Claim C1 — the output respects the limit

`get_reviews` first clamps the limit with `max(1, limit)` and finally
truncates with `reviews[:limit]`, so the bound holds for every requested
limit of at least 1; a requested limit of 0 is clamped to 1 and can be
exceeded.
-/

theorem getReviews_length_le (env : ChannelEnv)
    (rt : String → Option String → String)
    (an : String → Option String → Option PyNum → Option String →
      List (String × String))
    (lang : Option String) (limit0 : Nat) :
    (getReviews env rt an lang limit0).length ≤ max 1 limit0 := by
  simp only [getReviews, redactReviews, List.length_map, List.length_take]
  exact min_le_left _ _

/--
Claim C1 (counterexample): with a requested limit of 0 and a primary
channel delivering one review, `get_reviews` returns one review — more
than the requested limit — because the limit is first clamped to
`max(1, limit)`.
-/
theorem limit_zero_exceeded :
    ¬ ((getReviews ⟨some [rNice], none, none, none⟩ idRedactText noAnalysis
        none 0).length ≤ 0) := by
  decide

/--
Claim C1 (amended): for every call with a requested limit of at least 1 —
and any behaviour of the channels, the redactor and the enricher — the
returned list has length at most the requested limit (in general, at most
`max 1 limit`).
-/
theorem getReviews_respects_limit (env : ChannelEnv)
    (rt : String → Option String → String)
    (an : String → Option String → Option PyNum → Option String →
      List (String × String))
    (lang : Option String) (limit : Nat) (h : 1 ≤ limit) :
    (getReviews env rt an lang limit).length ≤ limit := by
  have hb := getReviews_length_le env rt an lang limit
  rwa [max_eq_right h] at hb

/-- Claim C1 (witness): the amended theorem at limit 2 with a concrete
environment. -/
theorem getReviews_respects_limit_witness :
    1 ≤ 2 ∧ (getReviews ⟨some [rNice], none, none, none⟩ idRedactText
      noAnalysis none 2).length ≤ 2 :=
  ⟨by decide,
    getReviews_respects_limit ⟨some [rNice], none, none, none⟩ idRedactText
      noAnalysis none 2 (by decide)⟩

/-!
### Claim C5 — decoder totality

All framing and JSON failures (empty input, malformed prefix, missing
tagged frame, invalid outer or inner JSON) do return `([], nil)`.  But the
decoder is not exception-free: a well-formed payload whose entry carries a
truthy non-string title or body reaches `re.sub` inside
`_clean_review_text` and raises `TypeError` — `_build_review_from_entry`
and `_parse_batchexecute_payload` have no handler for it (only the
channel's catch-all one level up absorbs it).
-/

theorem parse_frame_missing (s : String)
    (h : findPayloadStr none (payloadCandidateLines s) = none) :
    parseBatchexecutePayload s = .ok ([], none) := by
  unfold parseBatchexecutePayload
  by_cases hs : s = ""
  · simp [hs]
  · simp [hs, h]

theorem parse_inner_invalid (s p : String)
    (h1 : findPayloadStr none (payloadCandidateLines s) = some p)
    (h2 : jparse p = none) :
    parseBatchexecutePayload s = .ok ([], none) := by
  unfold parseBatchexecutePayload
  by_cases hs : s = ""
  · simp [hs]
  · simp [hs, h1, h2]

/--
The frame scan follows the source's `if payload_str:` truthiness re-check:
an empty-payload frame is recorded but does not stop the scan.  Alone (or
with a second frame only on its own line, which the chunk loop never
reaches) the recorded empty payload fails the inner JSON stage, giving
`([], nil)`; a real frame on a later line overrides it, and a later frame
with a bad entry still raises the entry-level `TypeError`.
-/
theorem parse_empty_payload_frame_rescans :
    findPayloadStr none (payloadCandidateLines fixtureEmptyFrame) = some "" ∧
      parseBatchexecutePayload fixtureEmptyFrame = .ok ([], none) ∧
      parseBatchexecutePayload fixtureEmptySameLine = .ok ([], none) ∧
      parseBatchexecutePayload fixtureEmptyThenReal = .ok ([rNice], none) ∧
      parseBatchexecutePayload fixtureEmptyThenBad =
        .error "TypeError: expected string or bytes-like object" :=
  ⟨by rfl, by rfl, by rfl, by rfl, by rfl⟩

/--
Claim C5 (counterexample): a response whose tagged frame decodes to an
entry carrying the number `7` as its body makes the decoder raise a
`TypeError` (modelled as `.error`), refuting "never raises an exception"
for every input string.
-/
theorem decoder_typeerror_raises :
    parseBatchexecutePayload fixtureTypeErr =
      .error "TypeError: expected string or bytes-like object" := by rfl

/--
Claim C5 (amended): on the empty string, on a malformed anti-hijack
prefix, on chunks with no tagged sub-frame, and on invalid JSON at the
outer or the inner level, the decoder returns `([], nil)` without raising;
in general any input whose frame scan ends without a recorded payload, or
whose recorded payload fails to JSON-parse (including a frame carrying the
empty payload that no later line overrides), yields `([], nil)`.  The
decoder is not total beyond that: a decoded entry with a truthy non-string
title or body raises `TypeError`.
-/
theorem parse_failure_yields_empty :
    parseBatchexecutePayload "" = .ok ([], none) ∧
      parseBatchexecutePayload fixtureBadPre = .ok ([], none) ∧
      parseBatchexecutePayload fixtureNoFrame = .ok ([], none) ∧
      parseBatchexecutePayload fixtureBadOuter = .ok ([], none) ∧
      parseBatchexecutePayload fixtureBadInner = .ok ([], none) ∧
      (∀ s, findPayloadStr none (payloadCandidateLines s) = none →
        parseBatchexecutePayload s = .ok ([], none)) ∧
      (∀ s p, findPayloadStr none (payloadCandidateLines s) = some p →
        jparse p = none → parseBatchexecutePayload s = .ok ([], none)) :=
  ⟨by rfl, by rfl, by rfl, by rfl, by rfl, parse_frame_missing, parse_inner_invalid⟩

/-- Claim C5 (witness): the amended theorem's frame-missing case applied to
a concrete frame-free input. -/
theorem parse_failure_yields_empty_witness :
    findPayloadStr none (payloadCandidateLines "zz") = none ∧
      parseBatchexecutePayload "zz" = .ok ([], none) :=
  ⟨by rfl, parse_failure_yields_empty.2.2.2.2.2.1 "zz" (by rfl)⟩

/-!
### Claim C3 — the empty-title-and-body invariant

Both construction paths discard a record with empty title and empty body,
and the invariant survives redaction whenever the redaction collaborator
maps non-empty text to non-empty text (both its code paths replace matched
spans with the non-empty `[REDACTED]` token).
-/

theorem mem_mergeModalReviews {r : PlayStoreReview} {a b : List PlayStoreReview}
    (h : r ∈ mergeModalReviews a b) : r ∈ a ∨ r ∈ b := by
  rw [mergeModalReviews_eq] at h
  rcases List.mem_append.mp h with h | h
  · exact .inl h
  · exact .inr (mem_mergeKept h).1

theorem inv_primaryStage {P : PlayStoreReview → Prop}
    {p : Option (List PlayStoreReview)}
    (hp : ∀ l, p = some l → ∀ x ∈ l, P x) :
    ∀ x ∈ primaryStage p, P x := by
  intro x hx
  cases p with
  | none => exact absurd hx (List.not_mem_nil x)
  | some api =>
    unfold primaryStage at hx
    dsimp only at hx
    split_ifs at hx with h
    · exact hp api rfl x hx
    · exact absurd hx (List.not_mem_nil x)

theorem inv_showAllStage {P : PlayStoreReview → Prop}
    {cur : List PlayStoreReview} {s : Option (List PlayStoreReview)}
    (hc : ∀ x ∈ cur, P x) (hs : ∀ l, s = some l → ∀ x ∈ l, P x) :
    ∀ x ∈ showAllStage cur s, P x := by
  intro x hx
  unfold showAllStage at hx
  split_ifs at hx with h
  · cases s with
    | none => exact hc x hx
    | some l =>
      dsimp only at hx
      split_ifs at hx with h2
      · exact hs l rfl x hx
      · exact hc x hx
  · exact hc x hx

theorem inv_fallbackStage {P : PlayStoreReview → Prop} {limit : Nat}
    {cur : List PlayStoreReview} {m d : Option (List PlayStoreReview)}
    (hc : ∀ x ∈ cur, P x) (hm : ∀ l, m = some l → ∀ x ∈ l, P x)
    (hd : ∀ l, d = some l → ∀ x ∈ l, P x) :
    ∀ x ∈ fallbackStage limit cur m d, P x := by
  intro x hx
  unfold fallbackStage at hx
  split_ifs at hx with h
  · cases m <;> cases d <;>
      dsimp only at hx <;>
      (try simp only [directFetchStep] at hx) <;>
      split_ifs at hx <;>
      first
        | exact hc x hx
        | exact hm _ rfl x hx
        | exact hd _ rfl x hx
        | (rcases mem_mergeModalReviews hx with hy | hy <;>
            first
              | exact hc x hy
              | exact hm _ rfl x hy)
  · exact hc x hx

/--
Claim C3: no review with both title and body empty appears in the result:
(i) the positional RPC entry decoder only produces reviews with a title or
a body; (ii) the HTML node extraction only produces reviews with a title
or a body; (iii) for every channel environment delivering only such
reviews and every redactor mapping non-empty text to non-empty text, every
review returned by `get_reviews` has a non-empty title or a non-empty
body.
-/
theorem empty_reviews_discarded :
    (∀ (e : JVal) (r : PlayStoreReview), buildReviewFromEntry e = .ok (some r) →
        r.title ≠ "" ∨ r.body ≠ "") ∧
      (∀ (u : Option String) (rat : Option PyNum) (dt : String)
          (hc : Option Int) (v : Option String) (bt : String)
          (r : PlayStoreReview),
        extractReviewFromNode u rat dt hc v bt = some r →
          r.title ≠ "" ∨ r.body ≠ "") ∧
      (∀ (env : ChannelEnv) (rt : String → Option String → String)
          (an : String → Option String → Option PyNum → Option String →
            List (String × String)) (lang : Option String) (limit0 : Nat),
        EnvTitleBodyInv env →
        (∀ t l, t ≠ "" → rt t l ≠ "") →
        ∀ r ∈ getReviews env rt an lang limit0,
          r.title ≠ "" ∨ r.body ≠ "") := by
  refine ⟨?_, ?_, ?_⟩
  · intro e r h
    cases e with
    | arr items =>
      simp only [buildReviewFromEntry] at h
      split at h
      · simp at h
      · split at h
        · simp at h
        · split at h
          · simp at h
          · split_ifs at h <;>
              simp only [Bool.and_eq_true, decide_eq_true_eq, not_and] at * <;>
              first
                | (simp at h; done)
                | (simp only [Except.ok.injEq, Option.some.injEq] at h
                   subst h
                   dsimp only
                   tauto)
                | (split at h <;>
                    first
                      | (simp at h; done)
                      | (simp only [Except.ok.injEq, Option.some.injEq] at h
                         subst h
                         dsimp only
                         tauto))
    | null => simp [buildReviewFromEntry] at h
    | bool b => simp [buildReviewFromEntry] at h
    | num v => simp [buildReviewFromEntry] at h
    | str s => simp [buildReviewFromEntry] at h
    | obj l => simp [buildReviewFromEntry] at h
  · intro u rat dt hc v bt r h
    cases u with
    | none => simp [extractReviewFromNode] at h
    | some u =>
      simp only [extractReviewFromNode] at h
      split at h
      · simp at h
      · split at h
        · simp at h
        · rename_i hcond
          simp only [Option.some.injEq] at h
          subst h
          simp only [Bool.and_eq_true, decide_eq_true_eq, not_and] at hcond
          by_cases h1 : (splitTitleAndBody bt).1 = ""
          · have h2 := hcond h1
            right
            simp only [if_pos h2]
            exact h2
          · exact .inl h1
  · intro env rt an lang limit0 henv hrt r hr
    obtain ⟨p, s, m, d⟩ := env
    have hp : ∀ l, p = some l → ∀ x ∈ l, x.title ≠ "" ∨ x.body ≠ "" :=
      fun l hl => henv l (Or.inl hl)
    have hsh : ∀ l, s = some l → ∀ x ∈ l, x.title ≠ "" ∨ x.body ≠ "" :=
      fun l hl => henv l (Or.inr (Or.inl hl))
    have hm : ∀ l, m = some l → ∀ x ∈ l, x.title ≠ "" ∨ x.body ≠ "" :=
      fun l hl => henv l (Or.inr (Or.inr (Or.inl hl)))
    have hd : ∀ l, d = some l → ∀ x ∈ l, x.title ≠ "" ∨ x.body ≠ "" :=
      fun l hl => henv l (Or.inr (Or.inr (Or.inr hl)))
    simp only [getReviews, redactReviews] at hr
    obtain ⟨r0, hr0, rfl⟩ := List.mem_map.mp hr
    have hr0' := List.take_subset _ _ hr0
    have hP : r0.title ≠ "" ∨ r0.body ≠ "" :=
      inv_fallbackStage (inv_showAllStage (inv_primaryStage hp) hsh) hm hd r0 hr0'
    rcases hP with hti | hbo
    · left
      simp only [redactOneReview]
      rw [if_pos hti]
      exact hrt _ _ hti
    · right
      simp only [redactOneReview]
      rw [if_pos hbo]
      exact hrt _ _ hbo

/-- Claim C3 (witness): the invariant instantiated on a concrete entry and
a concrete `get_reviews` environment. -/
theorem empty_reviews_discarded_witness :
    rNice.title ≠ "" ∨ rNice.body ≠ "" := by
  refine empty_reviews_discarded.2.2 ⟨some [rNice], none, none, none⟩
    idRedactText noAnalysis none 2 ?_ ?_ rNice ?_
  · intro l hl x hxl
    rcases hl with h | h | h | h
    · injection h with h2
      subst h2
      simp only [List.mem_singleton] at hxl
      subst hxl
      decide
    · exact Option.noConfusion h
    · exact Option.noConfusion h
    · exact Option.noConfusion h
  · intro t l h
    exact h
  · decide

end ScreenASO
